import Mathlib

/-!
Shallow embedding of the eduflow-backend authentication / key-wrapping
protocol (src/auth_handler.rs, src/auth_handler/token_gen.rs,
src/crypt/crypt_types.rs, src/crypt/crypt_provider.rs, src/db/sqlite.rs).

Rust `String` / `&str` values are modelled as lists of bytes (`Bytes`),
which is their actual representation; the UTF-8 validity invariant of the
Rust `String` type appears as an explicit hypothesis (`isValidUtf8`)
where a theorem needs it.  The external `simple_crypt` crate (an AEAD
cipher, declared out of scope by the design document) is modelled as an
ideal authenticated cipher: a ciphertext is an opaque record of the
plaintext and the key it was produced under, and decryption succeeds
exactly for the matching key.  The external `argon2` password hash
(also out of scope) is modelled as an ideal salted hash in the same way.
The sqlite store is modelled as four in-memory tables with per-table
AUTOINCREMENT counters; rows are kept in insertion (rowid) order and
single-row queries return the first matching row, as rusqlite's
`query_row` does.
-/

namespace EduFlow

instance {ε α : Type} [DecidableEq ε] [DecidableEq α] :
    DecidableEq (Except ε α) := fun x y =>
  match x, y with
  | .ok a, .ok b =>
    if h : a = b then .isTrue (by rw [h]) else .isFalse (by simp [h])
  | .ok _, .error _ => .isFalse (by simp)
  | .error _, .ok _ => .isFalse (by simp)
  | .error e, .error f =>
    if h : e = f then .isTrue (by rw [h]) else .isFalse (by simp [h])

/-- Bytes of a Rust `Vec<u8>` / `&[u8]` / `String`. -/
abbrev Bytes := List Nat

/-- ASCII alphanumeric byte. -/
def isAlnumByte (b : Nat) : Bool :=
  (48 ≤ b && b ≤ 57) || (65 ≤ b && b ≤ 90) || (97 ≤ b && b ≤ 122)

/-- UTF-8 continuation byte (0x80–0xBF). -/
def isCont (b : Nat) : Bool := 128 ≤ b && b ≤ 191

/-- Consume one UTF-8 encoded scalar value starting with first byte `b`,
returning the remaining bytes, or `none` if the sequence is ill-formed
(overlong forms, surrogates and out-of-range lead bytes rejected). -/
def utf8Rest (b : Nat) (rest : Bytes) : Option Bytes :=
  if b ≤ 127 then some rest
  else if b < 194 then none
  else if b ≤ 223 then
    match rest with
    | c1 :: r => if isCont c1 then some r else none
    | [] => none
  else if b ≤ 239 then
    match rest with
    | c1 :: c2 :: r =>
      if (if b = 224 then 160 ≤ c1 && c1 ≤ 191
          else if b = 237 then 128 ≤ c1 && c1 ≤ 159
          else isCont c1) && isCont c2 then some r else none
    | _ => none
  else if b ≤ 244 then
    match rest with
    | c1 :: c2 :: c3 :: r =>
      if (if b = 240 then 144 ≤ c1 && c1 ≤ 191
          else if b = 244 then 128 ≤ c1 && c1 ≤ 143
          else isCont c1) && isCont c2 && isCont c3 then some r else none
    | _ => none
  else none

/-- Fuel-indexed worker for `isValidUtf8`; each step consumes at least one
byte, so `fuel = length` always suffices. -/
def isValidUtf8Aux : Nat → Bytes → Bool
  | _, [] => true
  | 0, _ :: _ => false
  | fuel + 1, b :: rest =>
    match utf8Rest b rest with
    | some r => isValidUtf8Aux fuel r
    | none => false

/-- Standard UTF-8 validity check over a byte list: the model of what
Rust's `String::from_utf8` accepts. -/
def isValidUtf8 (bs : Bytes) : Bool := isValidUtf8Aux bs.length bs

/-- `i32::to_be_bytes` on the two's-complement representation. -/
def i32ToBeBytes (n : Int) : Bytes :=
  let u := (n % 4294967296).toNat
  [u / 16777216 % 256, u / 65536 % 256, u / 256 % 256, u % 256]

/-- `i32::from_be_bytes` (on a 4-byte list). -/
def i32FromBeBytes : Bytes → Int
  | [b0, b1, b2, b3] =>
    let u := b0 % 256 * 16777216 + b1 % 256 * 65536 + b2 % 256 * 256 + b3 % 256
    if u < 2147483648 then (u : Int) else (u : Int) - 4294967296
  | _ => 0

/-! ## Crypt provider (src/crypt/crypt_provider.rs, simple_crypt_prov.rs)

The concrete cipher is the external `simple_crypt` crate (AES-256-GCM
under a derived key), declared out of scope by the design document.  It
is modelled as an ideal authenticated symmetric cipher: a ciphertext
records the plaintext and the key it was produced under, and decryption
returns the plaintext exactly when the presented key matches, failing
otherwise (the authentication tag of the real AEAD). -/

/-- Opaque ciphertext of the ideal authenticated cipher. -/
structure Ciphertext where
  plain : Bytes
  key : Bytes
deriving DecidableEq

/-- Enum of all possible crypt providers (crypt_provider.rs). -/
inductive CryptProviders where
  | SimpleCryptProv
deriving DecidableEq

/-- `SimpleCryptProv::encrypt` (ideal model, never fails). -/
def providerEncrypt (data : Bytes) (key : Bytes) : Ciphertext := ⟨data, key⟩

/-- `SimpleCryptProv::decrypt` (ideal model: succeeds iff key matches). -/
def providerDecrypt (c : Ciphertext) (key : Bytes) : Option Bytes :=
  if c.key = key then some c.plain else none

/-- Free function `crypt_provider::encrypt`, dispatching on the provider. -/
def cpEncrypt (data : Bytes) (key : Bytes) : CryptProviders → Ciphertext
  | .SimpleCryptProv => providerEncrypt data key

/-- Free function `crypt_provider::decrypt`, dispatching on the provider. -/
def cpDecrypt (c : Ciphertext) (key : Bytes) : CryptProviders → Option Bytes
  | .SimpleCryptProv => providerDecrypt c key

/-! ## Envelope types (src/crypt/crypt_types.rs) -/

/-- The two failure classes of `CryptString::decrypt` (both surfaced as
`Box<dyn Error>` values in the source, but of distinct underlying types:
the cipher failure versus `FromUtf8Error`). -/
inductive CryptStringErr where
  | cipherFailure
  | utf8Error
deriving DecidableEq

/-- Encrypted type of String (`CryptString`).  The Rust plaintext
`String` is its UTF-8 byte list. -/
structure CryptString where
  data_crypt : Ciphertext
deriving DecidableEq

/-- `CryptString::encrypt` (crypt_types.rs lines 17-21). -/
def CryptString.encrypt (data : Bytes) (key : Bytes) (p : CryptProviders) :
    CryptString :=
  ⟨cpEncrypt data key p⟩

/-- `CryptString::decrypt` (crypt_types.rs lines 23-27): cipher failure
propagates; on success, `String::from_utf8` rejects invalid UTF-8 with a
distinct error. -/
def CryptString.decrypt (c : CryptString) (key : Bytes) (p : CryptProviders) :
    Except CryptStringErr Bytes :=
  match cpDecrypt c.data_crypt key p with
  | none => .error .cipherFailure
  | some bs => if isValidUtf8 bs then .ok bs else .error .utf8Error

/-- Outcome of `CryptI32::decrypt`: unlike `CryptString::decrypt`, its
decode step uses `.expect(..)`, so a wrong-width plaintext is a panic,
not an error return. -/
inductive I32Outcome where
  | ok : Int → I32Outcome
  | errCipher : I32Outcome
  | panicked : I32Outcome
deriving DecidableEq

/-- `CryptI32::encrypt` (crypt_types.rs lines 46-50). -/
def CryptI32.encrypt (data : Int) (key : Bytes) (p : CryptProviders) :
    Ciphertext :=
  cpEncrypt (i32ToBeBytes data) key p

/-- `CryptI32::decrypt` (crypt_types.rs lines 52-60): cipher failure is
an error return; a successfully decrypted plaintext whose width is not
exactly 4 bytes hits
`.expect("DB data corrupted, tried to decrypt but got wrong format.")`
and panics. -/
def CryptI32.decrypt (c : Ciphertext) (key : Bytes) (p : CryptProviders) :
    I32Outcome :=
  match cpDecrypt c key p with
  | none => .errCipher
  | some bs => if bs.length = 4 then .ok (i32FromBeBytes bs) else .panicked

/-! ## Token generator (src/auth_handler/token_gen.rs) -/

/-- `CHARSET`: bytes of
"ABCDEFGHIJKLMNOPQRSTUVWXYZabcdefghijklmnopqrstuvwxyz1234567890". -/
def CHARSET : Bytes :=
  [65, 66, 67, 68, 69, 70, 71, 72, 73, 74, 75, 76, 77, 78, 79, 80, 81, 82,
   83, 84, 85, 86, 87, 88, 89, 90,
   97, 98, 99, 100, 101, 102, 103, 104, 105, 106, 107, 108, 109, 110, 111,
   112, 113, 114, 115, 116, 117, 118, 119, 120, 121, 122,
   49, 50, 51, 52, 53, 54, 55, 56, 57, 48]

/-- Decimal digit bytes of a natural number, most significant first
(fuel-indexed worker; `fuel = n + 1` always suffices). -/
def decDigitsAux : Nat → Nat → Bytes → Bytes
  | 0, _, acc => acc
  | fuel + 1, n, acc =>
    let acc := (48 + n % 10) :: acc
    if n < 10 then acc else decDigitsAux fuel (n / 10) acc

/-- Decimal rendering of a natural number (model of `format!("{}", n)`). -/
def natToDecBytes (n : Nat) : Bytes := decDigitsAux (n + 1) n []

/-- Decimal rendering of an integer (model of `format!("{}", i)`). -/
def intToDecBytes (i : Int) : Bytes :=
  if i < 0 then 45 :: natToDecBytes (-i).toNat else natToDecBytes i.toNat

/-- `generate_token` (token_gen.rs lines 8-21): 32 characters drawn from
`CHARSET` (the rng draw is an index `< 62`, modelled as the stream
`rng`), followed by the decimal millisecond timestamp `ts`
(`format!("{}{}", token, time_sufix)`). -/
def generate_token (rng : Nat → Fin 62) (ts : Int) : Bytes :=
  ((List.range 32).map fun j => CHARSET.getD (rng j).val 0) ++ intToDecBytes ts

/-! ## Password / token hashing (argon2, external)

`create_credential(password) -> hash` / `verify(password, hash) -> bool`
are delegated to the external argon2 crate (out of scope), modelled as
an ideal salted hash: the PHC string records the hashed input and the
salt, and verification succeeds exactly for the matching input. -/

/-- Ideal model of an argon2 PHC hash string. -/
structure PasswordHashV where
  data : Bytes
  salt : Bytes
deriving DecidableEq

/-- `Argon2::default().hash_password(input, salt)` (ideal model). -/
def hashPassword (input salt : Bytes) : PasswordHashV := ⟨input, salt⟩

/-- `Argon2::default().verify_password(input, hash).is_ok()` (ideal). -/
def verifyPassword (input : Bytes) (h : PasswordHashV) : Bool :=
  input = h.data

/-! ## Token store (src/db/sqlite.rs)

Four tables, rows kept in insertion (rowid) order with per-table
AUTOINCREMENT counters; single-row queries (`query_row`) return the
first matching row or the `QueryReturnedNoRows` error.  Store I/O
failures (connection pool, disk) are outside the model. -/

/-- Error taxonomy of the embedded protocol.  In the source every error
is a `Box<dyn Error>`; the constructors below record the distinct error
sources (`"Invalid Token"` strings, `"Token expired"`, rusqlite's
`QueryReturnedNoRows`, the sqlite UNIQUE violation, and cipher/decode
failures during unwrapping). -/
inductive ProtoError where
  | invalidToken
  | tokenExpired
  | queryNoRows
  | uniqueViolation
  | cipherError
  | decodeError
deriving DecidableEq

/-- Row of the `user` table. -/
structure UserRow where
  id : Int
  username : Bytes
  password_hash : PasswordHashV
deriving DecidableEq

/-- Row of the `pwcrypt_local_token` table (`LocalTokenPWCrypt`). -/
structure PwLocalTokenRow where
  id : Int
  user_id : Int
  token_crypt : CryptString
  used_for : String
deriving DecidableEq

/-- Row of the `rtcrypt_local_token` table (`LocalTokenRTCrypt`). -/
structure RtLocalTokenRow where
  id : Int
  local_token_id : Int
  local_token_crypt : CryptString
  decryptable_by_rt_id : Int
deriving DecidableEq

/-- Row of the `remote_token` table (`RemoteToken`).  `valid_until` is a
`NaiveDateTime`, modelled as an integer timestamp. -/
structure RemoteTokenRow where
  id : Int
  rt_hash : PasswordHashV
  user_id : Int
  valid_until : Int
deriving DecidableEq

/-- The whole sqlite store. -/
structure DBState where
  users : List UserRow
  pwLocalTokens : List PwLocalTokenRow
  rtLocalTokens : List RtLocalTokenRow
  remoteTokens : List RemoteTokenRow
  nextUserId : Int
  nextPwLtId : Int
  nextRtLtId : Int
  nextRemoteTokenId : Int
deriving DecidableEq

/-- `new_user` (sqlite.rs lines 115-125): INSERT under the UNIQUE
constraint on `username`; returns `last_insert_rowid`. -/
def new_user (s : DBState) (username : Bytes) (password_hash : PasswordHashV) :
    DBState × Except ProtoError Int :=
  if s.users.any fun u => u.username = username then
    (s, .error .uniqueViolation)
  else
    ({ s with
        users := s.users ++ [⟨s.nextUserId, username, password_hash⟩],
        nextUserId := s.nextUserId + 1 },
     .ok s.nextUserId)

/-- `get_user_by_username` (sqlite.rs lines 99-113). -/
def get_user_by_username (s : DBState) (username : Bytes) :
    Except ProtoError UserRow :=
  match s.users.find? fun u => u.username = username with
  | none => .error .queryNoRows
  | some u => .ok u

/-- `new_local_token_pwcrypt` (sqlite.rs lines 127-145). -/
def new_local_token_pwcrypt (s : DBState) (user_id : Int)
    (token_crypt : CryptString) (used_for : String) : DBState :=
  { s with
      pwLocalTokens :=
        s.pwLocalTokens ++ [⟨s.nextPwLtId, user_id, token_crypt, used_for⟩],
      nextPwLtId := s.nextPwLtId + 1 }

/-- `new_local_token_rtcrypt` (sqlite.rs lines 147-168). -/
def new_local_token_rtcrypt (s : DBState) (local_token_id : Int)
    (local_token_crypt : CryptString) (decryptable_by_rt_id : Int) : DBState :=
  { s with
      rtLocalTokens :=
        s.rtLocalTokens ++
          [⟨s.nextRtLtId, local_token_id, local_token_crypt,
            decryptable_by_rt_id⟩],
      nextRtLtId := s.nextRtLtId + 1 }

/-- `get_local_tokens_by_user_pwcrypt` (sqlite.rs lines 170-193). -/
def get_local_tokens_by_user_pwcrypt (s : DBState) (user_id : Int) :
    List PwLocalTokenRow :=
  s.pwLocalTokens.filter fun r => r.user_id = user_id

/-- `get_local_token_by_used_for_pwcrypt` (sqlite.rs lines 195-216). -/
def get_local_token_by_used_for_pwcrypt (s : DBState) (user_id : Int)
    (used_for : String) : Except ProtoError PwLocalTokenRow :=
  match s.pwLocalTokens.find?
      fun r => r.user_id = user_id ∧ r.used_for = used_for with
  | none => .error .queryNoRows
  | some r => .ok r

/-- `get_local_token_by_id_rtcrypt` (sqlite.rs lines 218-237). -/
def get_local_token_by_id_rtcrypt (s : DBState) (local_token_id : Int)
    (remote_token_id : Int) : Except ProtoError RtLocalTokenRow :=
  match s.rtLocalTokens.find?
      fun r =>
        r.local_token_id = local_token_id ∧
        r.decryptable_by_rt_id = remote_token_id with
  | none => .error .queryNoRows
  | some r => .ok r

/-- `new_remote_token` (sqlite.rs lines 239-253): INSERT, returns
`last_insert_rowid`; cannot fail absent store I/O errors. -/
def new_remote_token (s : DBState) (rt_hash : PasswordHashV) (user_id : Int)
    (valid_until : Int) : DBState × Int :=
  ({ s with
      remoteTokens :=
        s.remoteTokens ++
          [⟨s.nextRemoteTokenId, rt_hash, user_id, valid_until⟩],
      nextRemoteTokenId := s.nextRemoteTokenId + 1 },
   s.nextRemoteTokenId)

/-- `get_remote_token` (sqlite.rs lines 255-268). -/
def get_remote_token (s : DBState) (token_id : Int) :
    Except ProtoError RemoteTokenRow :=
  match s.remoteTokens.find? fun r => r.id = token_id with
  | none => .error .queryNoRows
  | some r => .ok r

/-- `del_local_token_rtcrypt_by_rt` (sqlite.rs lines 270-276): DELETE of
every row wrapped for the given remote token; succeeds also when no row
matches. -/
def del_local_token_rtcrypt_by_rt (s : DBState) (remote_token_id : Int) :
    DBState :=
  { s with
      rtLocalTokens :=
        s.rtLocalTokens.filter fun r =>
          ¬r.decryptable_by_rt_id = remote_token_id }

/-- `del_remote_token` (sqlite.rs lines 278-284). -/
def del_remote_token (s : DBState) (remote_token_id : Int) : DBState :=
  { s with
      remoteTokens := s.remoteTokens.filter fun r => ¬r.id = remote_token_id }

/-! ## Session manager (src/auth_handler.rs)

Randomness (`generate_token` draws, OsRng salts) and the clock are
resolved by explicit parameters.  HTTP status codes are plain numbers
(401 UNAUTHORIZED, 409 CONFLICT, 500 INTERNAL_SERVER_ERROR). -/

/-- `TOKEN_EXPIRE` (auth_handler.rs line 18): days after which a token
expires.  Time is modelled in days, so `now + Days::new(d)` is `now + d`. -/
def TOKEN_EXPIRE : Int := 14

/-- `parse::<i32>` digit-accumulation worker (`none` on a non-digit). -/
def parseDigitsAux : Bytes → Nat → Option Nat
  | [], acc => some acc
  | b :: rest, acc =>
    if 48 ≤ b ∧ b ≤ 57 then parseDigitsAux rest (acc * 10 + (b - 48))
    else none

/-- Model of Rust `str::parse::<i32>` on the byte representation:
optional sign, one or more ASCII digits, nothing else, and the value
must fit in an `i32` (Rust reports overflow during accumulation; over a
complete digit string the accepted set is the same). -/
def parseI32 (bs : Bytes) : Option Int :=
  match bs with
  | [] => none
  | b :: rest =>
    if b = 43 then
      match rest, parseDigitsAux rest 0 with
      | _ :: _, some v => if v ≤ 2147483647 then some (v : Int) else none
      | _, _ => none
    else if b = 45 then
      match rest, parseDigitsAux rest 0 with
      | _ :: _, some v => if v ≤ 2147483648 then some (-(v : Int)) else none
      | _, _ => none
    else
      match parseDigitsAux bs 0 with
      | some v => if v ≤ 2147483647 then some (v : Int) else none
      | none => none

/-- Worker for `splitList`: split on `sep`, accumulating the current
segment in reverse. -/
def splitListAux (sep : Nat) : Bytes → Bytes → List Bytes
  | [], cur => [cur.reverse]
  | b :: rest, cur =>
    if b = sep then cur.reverse :: splitListAux sep rest []
    else splitListAux sep rest (b :: cur)

/-- Rust `str::split(sep)`: `n` separators give `n + 1` segments. -/
def splitList (sep : Nat) (bs : Bytes) : List Bytes := splitListAux sep bs []

/-- Rust `str::split_terminator(sep)`: like `split`, but a trailing
empty segment is omitted. -/
def splitTerminator (sep : Nat) (bs : Bytes) : List Bytes :=
  let segs := splitList sep bs
  if segs.getLast? = some [] then segs.dropLast else segs

/-- The bytes of `"Bearer "`. -/
def BEARER : Bytes := [66, 101, 97, 114, 101, 114, 32]

/-- Rust `str::strip_prefix` on byte lists. -/
def stripPre : Bytes → Bytes → Option Bytes
  | [], bs => some bs
  | _ :: _, [] => none
  | p :: ps, b :: bs => if b = p then stripPre ps bs else none

/-- `split_auth_header` (auth_handler.rs lines 254-267): strip
`"Bearer "`, split the remainder on `_` with `split_terminator`, take
the first segment as the decimal token id and the second as the token.
Every failure is the coarse `"Invalid Token"` / `ParseIntError` class. -/
def split_auth_header (auth_header : Bytes) : Except ProtoError (Int × Bytes) :=
  match stripPre BEARER auth_header with
  | none => .error .invalidToken
  | some token =>
    match (splitTerminator 95 token).head? with
    | none => .error .invalidToken
    | some token_id_s =>
      match (splitTerminator 95 token)[1]? with
      | none => .error .invalidToken
      | some tok =>
        match parseI32 token_id_s with
        | none => .error .invalidToken
        | some tid => .ok (tid, tok)

/-- `invalidate_remote_token` (auth_handler.rs lines 246-251): delete
every session-wrapped local token row for the session, then delete the
session token row (in this order). -/
def invalidate_remote_token (remote_token_id : Int) (s : DBState) : DBState :=
  del_remote_token (del_local_token_rtcrypt_by_rt s remote_token_id)
    remote_token_id

/-- `verify_token` (auth_handler.rs lines 273-302).  A missing header,
an unparsable header, a missing row, an expired token and a hash
mismatch are all error returns (mapped to 401 by every caller); an
expired token additionally runs `invalidate_remote_token` before
returning. -/
def verify_token (auth_header : Option Bytes) (now : Int) (s : DBState) :
    DBState × Except ProtoError (Int × Int × Bytes) :=
  match auth_header with
  | none => (s, .error .invalidToken)
  | some h =>
    match split_auth_header h with
    | .error e => (s, .error e)
    | .ok (token_id, token) =>
      match get_remote_token s token_id with
      | .error e => (s, .error e)
      | .ok token_db =>
        if token_db.valid_until ≤ now then
          (invalidate_remote_token token_id s, .error .tokenExpired)
        else if verifyPassword token token_db.rt_hash then
          (s, .ok (token_db.user_id, token_id, token))
        else (s, .error .invalidToken)

/-- `handle_verify` (auth_handler.rs lines 71-83): every `verify_token`
error becomes 401 UNAUTHORIZED. -/
def handle_verify (auth_header : Option Bytes) (now : Int) (s : DBState) :
    DBState × Except Nat Unit :=
  let res := verify_token auth_header now s
  match res.2 with
  | .error _ => (res.1, .error 401)
  | .ok _ => (res.1, .ok ())

/-- `handle_logout` (auth_handler.rs lines 50-68): verify first (else
401), then invalidate.  The 500 branch (delete failing after a
successful verify) needs a store I/O failure, outside the model. -/
def handle_logout (auth_header : Option Bytes) (now : Int) (s : DBState) :
    DBState × Except Nat Unit :=
  let res := verify_token auth_header now s
  match res.2 with
  | .error _ => (res.1, .error 401)
  | .ok t => (invalidate_remote_token t.2.1 res.1, .ok ())

/-- `add_new_local_token` (auth_handler.rs lines 317-323): generate a
local secret (`localSecret`, resolving `generate_token`), wrap it under
the password bytes, insert as a password-wrapped local token. -/
def add_new_local_token (user_id : Int) (password : Bytes) (used_for : String)
    (localSecret : Bytes) (p : CryptProviders) (s : DBState) : DBState :=
  new_local_token_pwcrypt s user_id
    (CryptString.encrypt localSecret password p) used_for

/-- The `try_for_each` rewrap loop inside `create_remote_token`
(auth_handler.rs lines 231-238): decrypt each password-wrapped local
token under the password, re-encrypt under the new remote token, insert;
the first failure aborts with the error (rows already inserted stay). -/
def rewrapLoop (p : CryptProviders) (password remoteSecret : Bytes)
    (rtId : Int) : List PwLocalTokenRow → DBState →
    DBState × Except ProtoError Unit
  | [], s => (s, .ok ())
  | lt :: rest, s =>
    match lt.token_crypt.decrypt password p with
    | .error .cipherFailure => (s, .error .cipherError)
    | .error .utf8Error => (s, .error .decodeError)
    | .ok tok =>
      rewrapLoop p password remoteSecret rtId rest
        (new_local_token_rtcrypt s lt.id
          (CryptString.encrypt tok remoteSecret p) rtId)

/-- `create_remote_token` (auth_handler.rs lines 202-244): generate the
session secret (`remoteSecret`), hash it with a fresh salt, insert the
session token row with `valid_until = now + valid_days`, rewrap every
password-wrapped local token of the user, and return
`"{remote_token_id}_{remote_token}"` (byte 95 is the underscore). -/
def create_remote_token (p : CryptProviders) (user_id : Int)
    (password : Bytes) (remoteSecret salt : Bytes) (now valid_days : Int)
    (s : DBState) : DBState × Except ProtoError Bytes :=
  let token_hashed := hashPassword remoteSecret salt
  let valid_until := now + valid_days
  let res := new_remote_token s token_hashed user_id valid_until
  let res2 := rewrapLoop p password remoteSecret res.2
    (get_local_tokens_by_user_pwcrypt res.1 user_id) res.1
  match res2.2 with
  | .error e => (res2.1, .error e)
  | .ok _ => (res2.1, .ok (intToDecBytes res.2 ++ [95] ++ remoteSecret))

/-- `handle_login` (auth_handler.rs lines 152-199): unknown user and
wrong password are both 401 (the dummy hash for timing does not change
the store); a `create_remote_token` failure is 500. -/
def handle_login (username password : Bytes) (remoteSecret rtSalt : Bytes)
    (p : CryptProviders) (now : Int) (s : DBState) :
    DBState × Except Nat Bytes :=
  match get_user_by_username s username with
  | .error _ => (s, .error 401)
  | .ok user =>
    if verifyPassword password user.password_hash then
      let res := create_remote_token p user.id password remoteSecret rtSalt
        now TOKEN_EXPIRE s
      match res.2 with
      | .ok tok => (res.1, .ok tok)
      | .error _ => (res.1, .error 500)
    else (s, .error 401)

/-- `crate::data_handler::objects::get_db_idents()` (objects.rs lines
12-14): the five resource kinds; `get_db_ident` of the derive macro
returns the struct name string. -/
def get_db_idents : List String :=
  ["CourseDB", "TopicDB", "StudyGoalDB", "ExamDB", "ToDoDB"]

/-- The provisioning `for_each` loop of `handle_register`
(auth_handler.rs lines 126-131): one `add_new_local_token` per resource
kind, secrets drawn from the stream `gen`; a failure is logged and
ignored (inserts cannot fail in the model). -/
def registerLoop (p : CryptProviders) (user_id : Int) (password : Bytes)
    (gen : Nat → Bytes) : List String → Nat → DBState → DBState
  | [], _, s => s
  | ident :: rest, j, s =>
    registerLoop p user_id password gen rest (j + 1)
      (add_new_local_token user_id password ident (gen j) p s)

/-- `handle_register` (auth_handler.rs lines 86-149): hash the password,
create the user (duplicate username → 409), provision one local token
per resource kind, then run login issuance (`create_remote_token`);
issuance failure → 500. -/
def handle_register (username password : Bytes) (salt : Bytes)
    (gen : Nat → Bytes) (remoteSecret rtSalt : Bytes) (p : CryptProviders)
    (now : Int) (s : DBState) : DBState × Except Nat Bytes :=
  let password_hash := hashPassword password salt
  let resU := new_user s username password_hash
  match resU.2 with
  | .error _ => (s, .error 409)
  | .ok user_id =>
    let s2 := registerLoop p user_id password gen get_db_idents 0 resU.1
    let res3 := create_remote_token p user_id password remoteSecret rtSalt
      now TOKEN_EXPIRE s2
    match res3.2 with
    | .ok tok => (res3.1, .ok tok)
    | .error _ => (res3.1, .error 500)

/-- `decrypt_local_token_for` (auth_handler.rs lines 304-314): fetch the
password-wrapped row for (user, kind), fetch its session-wrapped copy
for the session, decrypt under the session secret. -/
def decrypt_local_token_for (user_id : Int) (used_for : String)
    (remote_token_id : Int) (remote_token : Bytes) (p : CryptProviders)
    (s : DBState) : Except ProtoError Bytes :=
  match get_local_token_by_used_for_pwcrypt s user_id used_for with
  | .error e => .error e
  | .ok lt_pw =>
    match get_local_token_by_id_rtcrypt s lt_pw.id remote_token_id with
    | .error e => .error e
    | .ok lt_rt =>
      match lt_rt.local_token_crypt.decrypt remote_token p with
      | .error .cipherFailure => .error .cipherError
      | .error .utf8Error => .error .decodeError
      | .ok tok => .ok tok

/-- Specification of the rows a successful rewrap loop inserts: one
session-wrapped row per work-list row, ids counting up from `nid`, each
carrying the re-encryption of the underlying local secret under the new
session secret.  Used only to state the loop characterization lemma. -/
def wrapRows (p : CryptProviders) (remoteSecret : Bytes) (rtId : Int) :
    List PwLocalTokenRow → Int → List RtLocalTokenRow
  | [], _ => []
  | lt :: rest, nid =>
    ⟨nid, lt.id,
      CryptString.encrypt lt.token_crypt.data_crypt.plain remoteSecret p,
      rtId⟩ :: wrapRows p remoteSecret rtId rest (nid + 1)

/-- The five password-wrapped rows registration provisions for user
`uid`, one per resource kind of `get_db_idents`, ids counting from `bp`
and secrets drawn from `gen` (spec artifact for the lemmas). -/
def regRows (p : CryptProviders) (password : Bytes) (gen : Nat → Bytes)
    (uid bp : Int) : List PwLocalTokenRow :=
  [⟨bp, uid, CryptString.encrypt (gen 0) password p, "CourseDB"⟩,
   ⟨bp + 1, uid, CryptString.encrypt (gen 1) password p, "TopicDB"⟩,
   ⟨bp + 2, uid, CryptString.encrypt (gen 2) password p, "StudyGoalDB"⟩,
   ⟨bp + 3, uid, CryptString.encrypt (gen 3) password p, "ExamDB"⟩,
   ⟨bp + 4, uid, CryptString.encrypt (gen 4) password p, "ToDoDB"⟩]

/-! ## Concrete fixtures used by the closed instance theorems -/

/-- Header bytes of `"Bearer 1_A"`. -/
def hdrA : Bytes := [66, 101, 97, 114, 101, 114, 32, 49, 95, 65]

/-- A store holding one session (id 1, secret "A" hashed, user 7,
`valid_until` 0 — already expired at `now = 5`) and one wrapped local
token row for that session. -/
def wsExpired : DBState :=
  ⟨[], [], [⟨1, 1, ⟨⟨[66], [5]⟩⟩, 1⟩], [⟨1, ⟨[65], [0]⟩, 7, 0⟩], 1, 1, 2, 2⟩

/-- The same store with the session still valid until 10. -/
def wsLive : DBState :=
  ⟨[], [], [⟨1, 1, ⟨⟨[66], [5]⟩⟩, 1⟩], [⟨1, ⟨[65], [0]⟩, 7, 10⟩], 1, 1, 2, 2⟩

/-- A store with the user "a" (password "p"), owning two password-wrapped
local tokens of which the second is wrapped under a key that is not the
password (a corrupt row), so a login rewrap loop fails on it after
rewrapping the first. -/
def wsPartial : DBState :=
  ⟨[⟨1, [97], ⟨[112], [0]⟩⟩],
   [⟨1, 1, ⟨⟨[65], [112]⟩⟩, "CourseDB"⟩, ⟨2, 1, ⟨⟨[66], [9]⟩⟩, "TopicDB"⟩],
   [], [], 2, 3, 1, 1⟩

/-! ## Helper lemmas -/

theorem isValidUtf8Aux_of_ascii (fuel : Nat) (bs : Bytes)
    (hlen : bs.length ≤ fuel) (h : ∀ b ∈ bs, b ≤ 127) :
    isValidUtf8Aux fuel bs = true := by
  induction fuel generalizing bs with
  | zero =>
    cases bs with
    | nil => rfl
    | cons b rest => simp at hlen
  | succ fuel ih =>
    cases bs with
    | nil => rfl
    | cons b rest =>
      have hb : b ≤ 127 := h b (List.mem_cons_self b rest)
      rw [isValidUtf8Aux]
      rw [show utf8Rest b rest = some rest from by
        rw [utf8Rest.eq_def, if_pos hb]]
      exact ih rest (by simp at hlen; omega)
        (fun x hx => h x (List.mem_cons_of_mem b hx))

/-- An all-ASCII byte list is valid UTF-8. -/
theorem isValidUtf8_of_ascii (bs : Bytes) (h : ∀ b ∈ bs, b ≤ 127) :
    isValidUtf8 bs = true :=
  isValidUtf8Aux_of_ascii bs.length bs (Nat.le_refl _) h

theorem i32ToBeBytes_length (n : Int) : (i32ToBeBytes n).length = 4 := rfl

theorem i32_roundtrip (n : Int) (h1 : -2147483648 ≤ n) (h2 : n < 2147483648) :
    i32FromBeBytes (i32ToBeBytes n) = n := by
  simp only [i32ToBeBytes, i32FromBeBytes]
  omega

/-- Decrypting an envelope under the key it was encrypted with recovers
the plaintext, provided the plaintext is a valid Rust `String`. -/
theorem CryptString.decrypt_encrypt (v k : Bytes) (p : CryptProviders)
    (hv : isValidUtf8 v = true) :
    (CryptString.encrypt v k p).decrypt k p = .ok v := by
  cases p
  simp [CryptString.encrypt, CryptString.decrypt, cpEncrypt, cpDecrypt,
    providerEncrypt, providerDecrypt, hv]

/-- Decrypting an envelope under a different key fails with the cipher
failure class. -/
theorem CryptString.decrypt_encrypt_ne (v k1 k2 : Bytes) (p : CryptProviders)
    (hk : k1 ≠ k2) :
    (CryptString.encrypt v k1 p).decrypt k2 p = .error .cipherFailure := by
  cases p
  simp [CryptString.encrypt, CryptString.decrypt, cpEncrypt, cpDecrypt,
    providerEncrypt, providerDecrypt, hk]

/-! ## Claim theorems -/

/-- C8: for both envelope types and every value (empty string and
boundary integers included) and key, `decrypt (encrypt v k) k` returns
`v`; and for distinct keys `k1 ≠ k2`, `decrypt (encrypt v k1) k2`
returns an error rather than any plaintext.  The `CryptString` value
ranges over the byte lists of Rust `String`s, i.e. valid UTF-8. -/
theorem crypt_roundtrip_and_wrong_key (p : CryptProviders)
    (v : Bytes) (n : Int) (k k1 k2 : Bytes)
    (hv : isValidUtf8 v = true)
    (hn1 : -2147483648 ≤ n) (hn2 : n < 2147483648)
    (hk : k1 ≠ k2) :
    (CryptString.encrypt v k p).decrypt k p = .ok v ∧
    CryptI32.decrypt (CryptI32.encrypt n k p) k p = .ok n ∧
    (CryptString.encrypt v k1 p).decrypt k2 p = .error .cipherFailure ∧
    CryptI32.decrypt (CryptI32.encrypt n k1 p) k2 p = .errCipher := by
  refine ⟨CryptString.decrypt_encrypt v k p hv, ?_,
    CryptString.decrypt_encrypt_ne v k1 k2 p hk, ?_⟩
  · cases p
    simp [CryptI32.encrypt, CryptI32.decrypt, cpEncrypt, cpDecrypt,
      providerEncrypt, providerDecrypt, i32ToBeBytes_length,
      i32_roundtrip n hn1 hn2]
  · cases p
    simp [CryptI32.encrypt, CryptI32.decrypt, cpEncrypt, cpDecrypt,
      providerEncrypt, providerDecrypt, hk]

/-- C8 witness: the round trip at the empty string and at the boundary
integer `i32::MIN`, and wrong-key failure, at concrete keys. -/
theorem crypt_roundtrip_and_wrong_key_witness :
    isValidUtf8 [] = true ∧
    ((CryptString.encrypt [] [1] .SimpleCryptProv).decrypt [1]
        .SimpleCryptProv = .ok [] ∧
      CryptI32.decrypt (CryptI32.encrypt (-2147483648) [1] .SimpleCryptProv)
        [1] .SimpleCryptProv = .ok (-2147483648) ∧
      (CryptString.encrypt [] [1] .SimpleCryptProv).decrypt [2]
        .SimpleCryptProv = .error .cipherFailure ∧
      CryptI32.decrypt (CryptI32.encrypt (-2147483648) [1] .SimpleCryptProv)
        [2] .SimpleCryptProv = .errCipher) :=
  ⟨by decide,
   crypt_roundtrip_and_wrong_key .SimpleCryptProv [] (-2147483648) [1] [1] [2]
     (by decide) (by decide) (by decide) (by decide)⟩

/-- C7: the claim that envelope decryption never panics is wrong for
`CryptI32::decrypt`: a ciphertext whose plaintext (under the correct
key) is not exactly 4 bytes wide — here the `CryptString` encryption of
the one-byte string "0" under the same key, as read back from the
`rtcrypt_local_token` BLOB column — hits the
`.expect("DB data corrupted, ...")` and panics instead of returning an
error.  `CryptString::decrypt` does return the two distinct error
classes the spec describes (cipher failure versus UTF-8 decode
failure). -/
theorem cryptI32_wrong_width_panics :
    CryptI32.decrypt (CryptString.encrypt [48] [7] .SimpleCryptProv).data_crypt
      [7] .SimpleCryptProv = .panicked ∧
    (CryptString.encrypt [255] [7] .SimpleCryptProv).decrypt [7]
      .SimpleCryptProv = .error .utf8Error ∧
    (CryptString.encrypt [255] [7] .SimpleCryptProv).decrypt [8]
      .SimpleCryptProv = .error .cipherFailure ∧
    CryptStringErr.utf8Error ≠ CryptStringErr.cipherFailure := by
  decide

theorem decDigitsAux_mem (fuel : Nat) :
    ∀ (n : Nat) (acc : Bytes) (x : Nat), x ∈ decDigitsAux fuel n acc →
      (48 ≤ x ∧ x ≤ 57) ∨ x ∈ acc := by
  induction fuel with
  | zero => intro n acc x hx; exact .inr hx
  | succ fuel ih =>
    intro n acc x hx
    rw [decDigitsAux] at hx
    by_cases h : n < 10
    · rw [if_pos h] at hx
      rcases List.mem_cons.mp hx with h1 | h1
      · exact .inl (by omega)
      · exact .inr h1
    · rw [if_neg h] at hx
      rcases ih (n / 10) ((48 + n % 10) :: acc) x hx with h1 | h1
      · exact .inl h1
      · rcases List.mem_cons.mp h1 with h2 | h2
        · exact .inl (by omega)
        · exact .inr h2

theorem decDigitsAux_length (fuel : Nat) :
    ∀ (n : Nat) (acc : Bytes),
      acc.length ≤ (decDigitsAux fuel n acc).length := by
  induction fuel with
  | zero => intro n acc; exact Nat.le_refl _
  | succ fuel ih =>
    intro n acc
    rw [decDigitsAux]
    by_cases h : n < 10
    · rw [if_pos h]; simp
    · rw [if_neg h]
      calc acc.length ≤ ((48 + n % 10) :: acc).length := by simp
        _ ≤ _ := ih (n / 10) _

theorem natToDecBytes_mem (n : Nat) (x : Nat) (hx : x ∈ natToDecBytes n) :
    48 ≤ x ∧ x ≤ 57 := by
  rcases decDigitsAux_mem (n + 1) n [] x hx with h | h
  · exact h
  · simp at h

theorem natToDecBytes_length (n : Nat) : 1 ≤ (natToDecBytes n).length := by
  rw [natToDecBytes, decDigitsAux]
  by_cases h : n < 10
  · rw [if_pos h]; simp
  · rw [if_neg h]
    calc 1 ≤ ((48 + n % 10) :: ([] : Bytes)).length := by simp
      _ ≤ _ := decDigitsAux_length n (n / 10) _

theorem charset_alnum : ∀ x ∈ CHARSET, isAlnumByte x = true := by decide

/-- C9 counterexample: with rng draws all `0` and a realistic millisecond
timestamp the generated secret is 45 characters long, not 32; and the
header `"Bearer 1_ab_cd"` — not of the form
`"{decimal id}_{32-char alphanumeric secret}"` — is accepted by
`verify_token` (the split keeps only the first two `_`-separated
segments) rather than rejected as `InvalidToken`. -/
theorem token_format_counterexample :
    (generate_token (fun _ => 0) 1760227200000).length = 45 ∧
    ¬(generate_token (fun _ => 0) 1760227200000).length = 32 ∧
    (verify_token (some [66, 101, 97, 114, 101, 114, 32, 49, 95, 97, 98,
        95, 99, 100]) 0
        ⟨[], [], [], [⟨1, ⟨[97, 98], [0]⟩, 7, 10⟩], 1, 1, 1, 2⟩ =
      (⟨[], [], [], [⟨1, ⟨[97, 98], [0]⟩, 7, 10⟩], 1, 1, 1, 2⟩,
        .ok (7, 1, [97, 98]))) := by
  refine ⟨by decide, by decide, by decide⟩

/-- C9 amended: every generated token secret is 32 alphanumeric
characters followed by the decimal millisecond timestamp — alphanumeric
throughout, of length `32 + digits(ts) ≥ 33`, not of fixed length 32;
the bearer token produced by login is exactly
`"{decimal session_id}_{secret}"`; and `split_auth_header` accepts only
headers consisting of the `"Bearer "` prefix followed by at least two
`_`-separated segments whose first parses as an `i32` (taking the first
two segments and ignoring any extras), every other header form failing
verification. -/
theorem token_format_amended :
    (∀ (rng : Nat → Fin 62) (ts : Int), 0 ≤ ts →
      (generate_token rng ts).length = 32 + (intToDecBytes ts).length ∧
      33 ≤ (generate_token rng ts).length ∧
      ∀ b ∈ generate_token rng ts, isAlnumByte b = true) ∧
    (∀ p uid password remoteSecret salt now vd s s' tok,
      create_remote_token p uid password remoteSecret salt now vd s =
        (s', .ok tok) →
      tok = intToDecBytes s.nextRemoteTokenId ++ [95] ++ remoteSecret) ∧
    (∀ (h : Bytes) (tid : Int) (tok : Bytes),
      split_auth_header h = .ok (tid, tok) →
      ∃ rest s0, stripPre BEARER h = some rest ∧
        (splitTerminator 95 rest).head? = some s0 ∧
        (splitTerminator 95 rest)[1]? = some tok ∧
        parseI32 s0 = some tid) := by
  refine ⟨?_, ?_, ?_⟩
  · intro rng ts hts
    have hlen : (generate_token rng ts).length =
        32 + (intToDecBytes ts).length := by
      simp [generate_token]
    have hdec : 1 ≤ (intToDecBytes ts).length := by
      rw [intToDecBytes, if_neg (by omega)]
      exact natToDecBytes_length _
    refine ⟨hlen, by omega, ?_⟩
    intro b hb
    rcases List.mem_append.mp hb with h1 | h1
    · rcases List.mem_map.mp h1 with ⟨j, _, hj⟩
      refine charset_alnum b ?_
      rw [← hj]
      have hlt : ((rng j).val) < CHARSET.length :=
        lt_of_lt_of_eq (rng j).isLt (by decide)
      rw [List.getD_eq_getElem CHARSET 0 hlt]
      exact List.getElem_mem hlt
    · rw [intToDecBytes, if_neg (by omega)] at h1
      have := natToDecBytes_mem _ b h1
      simp [isAlnumByte]
      omega
  · intro p uid password remoteSecret salt now vd s s' tok hcrt
    rw [create_remote_token] at hcrt
    split at hcrt
    · simp at hcrt
    · simp only [Prod.mk.injEq, Except.ok.injEq] at hcrt
      exact hcrt.2.symm
  · intro h tid tok hsp
    rw [split_auth_header] at hsp
    split at hsp
    · simp at hsp
    · split at hsp
      · simp at hsp
      · split at hsp
        · simp at hsp
        · split at hsp
          · simp at hsp
          · simp only [Except.ok.injEq, Prod.mk.injEq] at hsp
            obtain ⟨h1, h2⟩ := hsp
            subst h1
            subst h2
            exact ⟨_, _, by assumption, by assumption, by assumption,
              by assumption⟩

/-- C9 amended witness: the shape facts at a concrete rng, timestamp and
header. -/
theorem token_format_amended_witness :
    ((generate_token (fun _ => 3) 7).length = 33 ∧
      ∀ b ∈ generate_token (fun _ => 3) 7, isAlnumByte b = true) ∧
    (∃ rest s0,
      stripPre BEARER [66, 101, 97, 114, 101, 114, 32, 49, 95, 65] =
        some rest ∧
      (splitTerminator 95 rest).head? = some s0 ∧
      (splitTerminator 95 rest)[1]? = some [65] ∧
      parseI32 s0 = some 1) := by
  have h := token_format_amended
  refine ⟨?_, h.2.2 [66, 101, 97, 114, 101, 114, 32, 49, 95, 65] 1 [65]
    (by decide)⟩
  have h1 := h.1 (fun _ => 3) 7 (by decide)
  exact ⟨by rw [h1.1]; decide, h1.2.2⟩

/-- C4: the revocation cascade is exactly the deletion of every
session-wrapped local token row for the session followed by the deletion
of the session token row; after the first step alone (the state in which
a failure of the second delete would leave the store) no wrapped row for
the session remains while the `remote_token` table is untouched — a
dangling SessionToken with no key access, never a wrapped row without
its SessionToken. -/
theorem revocation_cascade_order (s : DBState) (rtId : Int) :
    invalidate_remote_token rtId s =
      del_remote_token (del_local_token_rtcrypt_by_rt s rtId) rtId ∧
    (∀ r ∈ (del_local_token_rtcrypt_by_rt s rtId).rtLocalTokens,
      ¬r.decryptable_by_rt_id = rtId) ∧
    (del_local_token_rtcrypt_by_rt s rtId).remoteTokens = s.remoteTokens := by
  refine ⟨rfl, ?_, rfl⟩
  intro r hr
  simp only [del_local_token_rtcrypt_by_rt] at hr
  have := List.of_mem_filter hr
  simpa using this

/-- C4 witness: the cascade facts at a concrete store holding one
wrapped row and one session row for session 1. -/
theorem revocation_cascade_order_witness :
    invalidate_remote_token 1
        ⟨[], [], [⟨1, 1, ⟨⟨[65], [2]⟩⟩, 1⟩], [⟨1, ⟨[65], [0]⟩, 7, 10⟩],
          2, 2, 2, 2⟩ =
      del_remote_token
        (del_local_token_rtcrypt_by_rt
          ⟨[], [], [⟨1, 1, ⟨⟨[65], [2]⟩⟩, 1⟩], [⟨1, ⟨[65], [0]⟩, 7, 10⟩],
            2, 2, 2, 2⟩ 1) 1 ∧
    (∀ r ∈ (del_local_token_rtcrypt_by_rt
        ⟨[], [], [⟨1, 1, ⟨⟨[65], [2]⟩⟩, 1⟩], [⟨1, ⟨[65], [0]⟩, 7, 10⟩],
          2, 2, 2, 2⟩ 1).rtLocalTokens,
      ¬r.decryptable_by_rt_id = 1) ∧
    (del_local_token_rtcrypt_by_rt
        ⟨[], [], [⟨1, 1, ⟨⟨[65], [2]⟩⟩, 1⟩], [⟨1, ⟨[65], [0]⟩, 7, 10⟩],
          2, 2, 2, 2⟩ 1).remoteTokens =
      [⟨1, ⟨[65], [0]⟩, 7, 10⟩] :=
  revocation_cascade_order
    ⟨[], [], [⟨1, 1, ⟨⟨[65], [2]⟩⟩, 1⟩], [⟨1, ⟨[65], [0]⟩, 7, 10⟩],
      2, 2, 2, 2⟩ 1

/-- C6: login with an existing username but a wrong password leaves the
store exactly unchanged (in particular it creates no SessionToken row
and no SessionWrappedLocalToken row) and returns 401, the same error
class as login with a nonexistent username. -/
theorem login_wrong_password_no_rows :
    (∀ s username password remoteSecret rtSalt p now u,
      get_user_by_username s username = .ok u →
      verifyPassword password u.password_hash = false →
      handle_login username password remoteSecret rtSalt p now s =
        (s, .error 401)) ∧
    (∀ s username password remoteSecret rtSalt p now e,
      get_user_by_username s username = .error e →
      handle_login username password remoteSecret rtSalt p now s =
        (s, .error 401)) := by
  constructor
  · intro s username password remoteSecret rtSalt p now u hu hpw
    simp [handle_login, hu, hpw]
  · intro s username password remoteSecret rtSalt p now e he
    simp [handle_login, he]

/-- C6 witness: a store with the single user "a" (byte 97) whose
password is "p" (byte 112): logging in as "a" with wrong password "q"
and as the absent "b" both return 401 with the store unchanged. -/
theorem login_wrong_password_no_rows_witness :
    handle_login [97] [113] [65] [0] .SimpleCryptProv 0
        ⟨[⟨1, [97], ⟨[112], [0]⟩⟩], [], [], [], 2, 1, 1, 1⟩ =
      (⟨[⟨1, [97], ⟨[112], [0]⟩⟩], [], [], [], 2, 1, 1, 1⟩, .error 401) ∧
    handle_login [98] [112] [65] [0] .SimpleCryptProv 0
        ⟨[⟨1, [97], ⟨[112], [0]⟩⟩], [], [], [], 2, 1, 1, 1⟩ =
      (⟨[⟨1, [97], ⟨[112], [0]⟩⟩], [], [], [], 2, 1, 1, 1⟩, .error 401) :=
  ⟨login_wrong_password_no_rows.1
      ⟨[⟨1, [97], ⟨[112], [0]⟩⟩], [], [], [], 2, 1, 1, 1⟩
      [97] [113] [65] [0] .SimpleCryptProv 0 ⟨1, [97], ⟨[112], [0]⟩⟩
      (by decide) (by decide),
   login_wrong_password_no_rows.2
      ⟨[⟨1, [97], ⟨[112], [0]⟩⟩], [], [], [], 2, 1, 1, 1⟩
      [98] [112] [65] [0] .SimpleCryptProv 0 .queryNoRows (by decide)⟩

theorem invalidate_rt_rows (s : DBState) (tid : Int) :
    ∀ r ∈ (invalidate_remote_token tid s).rtLocalTokens,
      ¬r.decryptable_by_rt_id = tid := by
  intro r hr
  have heq : (invalidate_remote_token tid s).rtLocalTokens =
      s.rtLocalTokens.filter
        (fun r => ¬r.decryptable_by_rt_id = tid) := rfl
  rw [heq] at hr
  have := List.of_mem_filter hr
  simpa using this

theorem invalidate_remote_rows (s : DBState) (tid : Int) :
    ∀ r ∈ (invalidate_remote_token tid s).remoteTokens, ¬r.id = tid := by
  intro r hr
  have heq : (invalidate_remote_token tid s).remoteTokens =
      s.remoteTokens.filter (fun r => ¬r.id = tid) := rfl
  rw [heq] at hr
  have := List.of_mem_filter hr
  simpa using this

theorem get_remote_token_invalidate (s : DBState) (tid : Int) :
    get_remote_token (invalidate_remote_token tid s) tid =
      .error .queryNoRows := by
  rw [get_remote_token]
  have hnone : (invalidate_remote_token tid s).remoteTokens.find?
      (fun r => r.id = tid) = none := by
    rw [List.find?_eq_none]
    intro r hr
    simpa using invalidate_remote_rows s tid r hr
  rw [hnone]

theorem verify_token_after_invalidate (h : Bytes) (tid : Int)
    (secret : Bytes) (now : Int) (s : DBState)
    (hsplit : split_auth_header h = .ok (tid, secret)) :
    verify_token (some h) now (invalidate_remote_token tid s) =
      (invalidate_remote_token tid s, .error .queryNoRows) := by
  simp [verify_token, hsplit, get_remote_token_invalidate s tid]

/-- Shape of a successful verification: the store is untouched and the
returned triple comes from a parsed, unexpired, hash-matching session. -/
theorem verify_token_ok_shape (ah : Option Bytes) (now : Int) (s : DBState)
    (uid tid : Int) (tok : Bytes)
    (hok : (verify_token ah now s).2 = .ok (uid, tid, tok)) :
    verify_token ah now s = (s, .ok (uid, tid, tok)) ∧
    ∃ h row, ah = some h ∧ split_auth_header h = .ok (tid, tok) ∧
      get_remote_token s tid = .ok row ∧ ¬row.valid_until ≤ now ∧
      verifyPassword tok row.rt_hash = true ∧ uid = row.user_id := by
  cases ah with
  | none =>
    have hv : verify_token none now s = (s, .error .invalidToken) := by
      simp [verify_token]
    rw [hv] at hok
    simp at hok
  | some h =>
    rcases hsplit : split_auth_header h with e | pr
    · have hv : verify_token (some h) now s = (s, .error e) := by
        simp [verify_token, hsplit]
      rw [hv] at hok
      simp at hok
    · obtain ⟨tid0, tok0⟩ := pr
      rcases hget : get_remote_token s tid0 with e | row
      · have hv : verify_token (some h) now s = (s, .error e) := by
          simp [verify_token, hsplit, hget]
        rw [hv] at hok
        simp at hok
      · by_cases hexp : row.valid_until ≤ now
        · have hv : verify_token (some h) now s =
              (invalidate_remote_token tid0 s, .error .tokenExpired) := by
            simp [verify_token, hsplit, hget, hexp]
          rw [hv] at hok
          simp at hok
        · by_cases hpw : verifyPassword tok0 row.rt_hash = true
          · have hv : verify_token (some h) now s =
                (s, .ok (row.user_id, tid0, tok0)) := by
              simp [verify_token, hsplit, hget, hexp, hpw]
            rw [hv] at hok
            simp at hok
            obtain ⟨h1, h2, h3⟩ := hok
            subst h1
            subst h2
            subst h3
            exact ⟨hv, h, row, rfl, hsplit, hget, hexp, hpw, rfl⟩
          · have hv : verify_token (some h) now s =
                (s, .error .invalidToken) := by
              simp [verify_token, hsplit, hget, hexp, hpw]
            rw [hv] at hok
            simp at hok

/-- C3: a session whose `valid_until` is not after the current time
fails verification with the expiry error; as a side effect its wrapped
local token rows and its session row are deleted; presenting the same
bearer again fails with the (equally 401-mapped) missing-row error and
changes nothing further — the cleanup is idempotent and total in the
model, so nothing crashes. -/
theorem expired_token_purged_idempotent
    (s : DBState) (h : Bytes) (tid : Int) (secret : Bytes) (now : Int)
    (row : RemoteTokenRow)
    (hsplit : split_auth_header h = .ok (tid, secret))
    (hget : get_remote_token s tid = .ok row)
    (hexp : row.valid_until ≤ now) :
    verify_token (some h) now s =
      (invalidate_remote_token tid s, .error .tokenExpired) ∧
    (∀ r ∈ (invalidate_remote_token tid s).rtLocalTokens,
      ¬r.decryptable_by_rt_id = tid) ∧
    (∀ r ∈ (invalidate_remote_token tid s).remoteTokens, ¬r.id = tid) ∧
    verify_token (some h) now (invalidate_remote_token tid s) =
      (invalidate_remote_token tid s, .error .queryNoRows) ∧
    handle_verify (some h) now s =
      (invalidate_remote_token tid s, .error 401) ∧
    handle_verify (some h) now (invalidate_remote_token tid s) =
      (invalidate_remote_token tid s, .error 401) := by
  have h1 : verify_token (some h) now s =
      (invalidate_remote_token tid s, .error .tokenExpired) := by
    simp [verify_token, hsplit, hget, hexp]
  have h2 := verify_token_after_invalidate h tid secret now s hsplit
  refine ⟨h1, invalidate_rt_rows s tid, invalidate_remote_rows s tid, h2,
    ?_, ?_⟩
  · simp [handle_verify, h1]
  · simp [handle_verify, h2]

/-- C3 witness: the purge-and-repeat behaviour at the concrete expired
store `wsExpired` and the header `"Bearer 1_A"`. -/
theorem expired_token_purged_idempotent_witness :
    verify_token (some hdrA) 5 wsExpired =
      (invalidate_remote_token 1 wsExpired, .error .tokenExpired) ∧
    (∀ r ∈ (invalidate_remote_token 1 wsExpired).rtLocalTokens,
      ¬r.decryptable_by_rt_id = 1) ∧
    (∀ r ∈ (invalidate_remote_token 1 wsExpired).remoteTokens, ¬r.id = 1) ∧
    verify_token (some hdrA) 5 (invalidate_remote_token 1 wsExpired) =
      (invalidate_remote_token 1 wsExpired, .error .queryNoRows) ∧
    handle_verify (some hdrA) 5 wsExpired =
      (invalidate_remote_token 1 wsExpired, .error 401) ∧
    handle_verify (some hdrA) 5 (invalidate_remote_token 1 wsExpired) =
      (invalidate_remote_token 1 wsExpired, .error 401) :=
  expired_token_purged_idempotent wsExpired hdrA 1 [65] 5
    ⟨1, ⟨[65], [0]⟩, 7, 0⟩ (by decide) (by decide) (by decide)

/-- C10: in `verify_token` the expiry check runs before the presented
secret is compared against the stored hash, so an expired session is
purged on a verification naming its id with any presented secret
whatsoever; by contrast `handle_logout` on an unexpired session with a
wrong secret deletes nothing and returns 401. -/
theorem expired_purge_ignores_secret
    (s : DBState) (now tid : Int) (row : RemoteTokenRow)
    (hget : get_remote_token s tid = .ok row)
    (hexp : row.valid_until ≤ now) :
    (∀ (h secret : Bytes), split_auth_header h = .ok (tid, secret) →
      verify_token (some h) now s =
        (invalidate_remote_token tid s, .error .tokenExpired)) ∧
    (∀ (h secret : Bytes) (s2 : DBState) (row2 : RemoteTokenRow),
      split_auth_header h = .ok (tid, secret) →
      get_remote_token s2 tid = .ok row2 → now < row2.valid_until →
      verifyPassword secret row2.rt_hash = false →
      handle_logout (some h) now s2 = (s2, .error 401)) := by
  constructor
  · intro h secret hsplit
    simp [verify_token, hsplit, hget, hexp]
  · intro h secret s2 row2 hsplit hget2 hlive hpw
    have hv : verify_token (some h) now s2 = (s2, .error .invalidToken) := by
      simp [verify_token, hsplit, hget2, hpw,
        show ¬row2.valid_until ≤ now by omega]
    simp [handle_logout, hv]

/-- C10 witness: the expired store purged under the wrong secret "B"
(byte 66, while the stored hash is of "A"), and the live store refusing
a logout under that wrong secret. -/
theorem expired_purge_ignores_secret_witness :
    verify_token (some [66, 101, 97, 114, 101, 114, 32, 49, 95, 66]) 5
        wsExpired =
      (invalidate_remote_token 1 wsExpired, .error .tokenExpired) ∧
    handle_logout (some [66, 101, 97, 114, 101, 114, 32, 49, 95, 66]) 5
        wsLive =
      (wsLive, .error 401) :=
  ⟨(expired_purge_ignores_secret wsExpired 5 1 ⟨1, ⟨[65], [0]⟩, 7, 0⟩
      (by decide) (by decide)).1
      [66, 101, 97, 114, 101, 114, 32, 49, 95, 66] [66] (by decide),
   (expired_purge_ignores_secret wsExpired 5 1 ⟨1, ⟨[65], [0]⟩, 7, 0⟩
      (by decide) (by decide)).2
      [66, 101, 97, 114, 101, 114, 32, 49, 95, 66] [66] wsLive
      ⟨1, ⟨[65], [0]⟩, 7, 10⟩ (by decide) (by decide) (by decide)
      (by decide)⟩

/-- C5: after a successful logout on a bearer, verifying the same bearer
fails (mapped to 401, the `InvalidToken` class) and no wrapped local
token row referencing the session remains in the store. -/
theorem logout_revokes_session
    (s s' : DBState) (h : Bytes) (now tid : Int) (tok : Bytes)
    (hsplit : split_auth_header h = .ok (tid, tok))
    (hlogout : handle_logout (some h) now s = (s', .ok ())) :
    verify_token (some h) now s' = (s', .error .queryNoRows) ∧
    handle_verify (some h) now s' = (s', .error 401) ∧
    ∀ r ∈ s'.rtLocalTokens, ¬r.decryptable_by_rt_id = tid := by
  simp only [handle_logout] at hlogout
  rcases hv : (verify_token (some h) now s).2 with e | t
  · rw [hv] at hlogout
    simp at hlogout
  · obtain ⟨uid2, tid2, tok2⟩ := t
    obtain ⟨hfix, _, row, hh, hsplit2, -⟩ :=
      verify_token_ok_shape (some h) now s uid2 tid2 tok2 hv
    injection hh with hh
    subst hh
    rw [hsplit] at hsplit2
    injection hsplit2 with h3
    have htid : tid = tid2 := by simpa using congrArg Prod.fst h3
    subst htid
    rw [hfix] at hlogout
    simp at hlogout
    subst hlogout
    refine ⟨verify_token_after_invalidate h tid tok now s hsplit, ?_,
      invalidate_rt_rows s tid⟩
    simp [handle_verify,
      verify_token_after_invalidate h tid tok now s hsplit]

/-- C5 witness: logout of the live session `"Bearer 1_A"` from `wsLive`
followed by a failing verification of the same header. -/
theorem logout_revokes_session_witness :
    verify_token (some hdrA) 5 (invalidate_remote_token 1 wsLive) =
      (invalidate_remote_token 1 wsLive, .error .queryNoRows) ∧
    handle_verify (some hdrA) 5 (invalidate_remote_token 1 wsLive) =
      (invalidate_remote_token 1 wsLive, .error 401) ∧
    ∀ r ∈ (invalidate_remote_token 1 wsLive).rtLocalTokens,
      ¬r.decryptable_by_rt_id = 1 :=
  logout_revokes_session wsLive (invalidate_remote_token 1 wsLive) hdrA 5 1
    [65] (by decide) (by decide)

/-- The rewrap loop never touches the `remote_token` table. -/
theorem rewrapLoop_remoteTokens (p : CryptProviders)
    (password remoteSecret : Bytes) (rtId : Int) :
    ∀ (L : List PwLocalTokenRow) (s : DBState),
      (rewrapLoop p password remoteSecret rtId L s).1.remoteTokens =
        s.remoteTokens := by
  intro L
  induction L with
  | nil => intro s; rfl
  | cons lt rest ih =>
    intro s
    rcases hd : lt.token_crypt.decrypt password p with e | tok
    · cases e <;> simp [rewrapLoop, hd]
    · have := ih (new_local_token_rtcrypt s lt.id
        (CryptString.encrypt tok remoteSecret p) rtId)
      simpa [rewrapLoop, hd, new_local_token_rtcrypt] using this

/-- If any row of the work list fails to decrypt, the rewrap loop
returns an error. -/
theorem rewrapLoop_fails (p : CryptProviders)
    (password remoteSecret : Bytes) (rtId : Int) :
    ∀ (L : List PwLocalTokenRow) (s : DBState),
      (∃ r ∈ L, ∃ e, r.token_crypt.decrypt password p = .error e) →
      ∃ e2, (rewrapLoop p password remoteSecret rtId L s).2 = .error e2 := by
  intro L
  induction L with
  | nil => intro s h; simp at h
  | cons lt rest ih =>
    intro s h
    rcases hd : lt.token_crypt.decrypt password p with e | tok
    · cases e
      · exact ⟨.cipherError, by simp [rewrapLoop, hd]⟩
      · exact ⟨.decodeError, by simp [rewrapLoop, hd]⟩
    · rcases h with ⟨r, hr, e, he⟩
      rcases List.mem_cons.mp hr with h1 | h1
      · subst h1
        rw [hd] at he
        simp at he
      · have := ih (new_local_token_rtcrypt s lt.id
          (CryptString.encrypt tok remoteSecret p) rtId) ⟨r, h1, e, he⟩
        simpa [rewrapLoop, hd] using this

/-- C2 amended: a failure on any single local token in the rewrap loop
aborts the whole login with InternalFailure (HTTP 500, no token returned
to the client), but the SessionToken row already inserted for the
attempt — whose secret was never revealed — remains in the store, as do
the wrapped rows created before the failing one. -/
theorem login_rewrap_failure_aborts
    (s : DBState) (username password remoteSecret rtSalt : Bytes)
    (p : CryptProviders) (now : Int) (u : UserRow)
    (hu : get_user_by_username s username = .ok u)
    (hpw : verifyPassword password u.password_hash = true)
    (hfail : ∃ r ∈ get_local_tokens_by_user_pwcrypt s u.id,
      ∃ e, r.token_crypt.decrypt password p = .error e) :
    ∃ s', handle_login username password remoteSecret rtSalt p now s =
        (s', .error 500) ∧
      (⟨s.nextRemoteTokenId, hashPassword remoteSecret rtSalt, u.id,
        now + TOKEN_EXPIRE⟩ : RemoteTokenRow) ∈ s'.remoteTokens := by
  obtain ⟨e2, he2⟩ := rewrapLoop_fails p password remoteSecret
    s.nextRemoteTokenId (get_local_tokens_by_user_pwcrypt s u.id)
    (new_remote_token s (hashPassword remoteSecret rtSalt) u.id
      (now + TOKEN_EXPIRE)).1 hfail
  refine ⟨(rewrapLoop p password remoteSecret s.nextRemoteTokenId
    (get_local_tokens_by_user_pwcrypt s u.id)
    (new_remote_token s (hashPassword remoteSecret rtSalt) u.id
      (now + TOKEN_EXPIRE)).1).1, ?_, ?_⟩
  · simp only [handle_login, hu, hpw, if_pos, create_remote_token]
    simp only [show
      (new_remote_token s (hashPassword remoteSecret rtSalt) u.id
        (now + TOKEN_EXPIRE)).2 = s.nextRemoteTokenId from rfl,
      show get_local_tokens_by_user_pwcrypt
        (new_remote_token s (hashPassword remoteSecret rtSalt) u.id
          (now + TOKEN_EXPIRE)).1 u.id =
        get_local_tokens_by_user_pwcrypt s u.id from rfl]
    rw [he2]
  · rw [rewrapLoop_remoteTokens]
    simp [new_remote_token]

/-- C2 counterexample: from `wsPartial`, a login with the correct
password "p" aborts with 500, yet afterwards the store holds the
SessionToken row of the aborted attempt and the wrapped row created for
the first category before the second one failed — contradicting the
claim that an aborted login leaves no SessionToken and no
SessionWrappedLocalToken row. -/
theorem login_abort_leaves_rows :
    (handle_login [97] [112] [66] [1] .SimpleCryptProv 0 wsPartial).2 =
      .error 500 ∧
    (handle_login [97] [112] [66] [1] .SimpleCryptProv 0
        wsPartial).1.remoteTokens = [⟨1, ⟨[66], [1]⟩, 1, 14⟩] ∧
    (handle_login [97] [112] [66] [1] .SimpleCryptProv 0
        wsPartial).1.rtLocalTokens = [⟨1, 1, ⟨⟨[65], [66]⟩⟩, 1⟩] := by
  decide

/-- C2 amended witness: the abort at the concrete store `wsPartial`. -/
theorem login_rewrap_failure_aborts_witness :
    ∃ s', handle_login [97] [112] [66] [1] .SimpleCryptProv 0 wsPartial =
        (s', .error 500) ∧
      (⟨1, hashPassword [66] [1], 1, 0 + TOKEN_EXPIRE⟩ : RemoteTokenRow) ∈
        s'.remoteTokens :=
  login_rewrap_failure_aborts wsPartial [97] [112] [66] [1]
    .SimpleCryptProv 0 ⟨1, [97], ⟨[112], [0]⟩⟩ (by decide) (by decide)
    ⟨⟨2, 1, ⟨⟨[66], [9]⟩⟩, "TopicDB"⟩, by decide,
      .cipherFailure, by decide⟩

theorem cpEncrypt_key (data key : Bytes) (p : CryptProviders) :
    (cpEncrypt data key p).key = key := by cases p; rfl

theorem cpEncrypt_plain (data key : Bytes) (p : CryptProviders) :
    (cpEncrypt data key p).plain = data := by cases p; rfl

theorem CryptString.decrypt_eq_plain (c : CryptString) (key : Bytes)
    (p : CryptProviders) (hk : c.data_crypt.key = key)
    (hv : isValidUtf8 c.data_crypt.plain = true) :
    c.decrypt key p = .ok c.data_crypt.plain := by
  cases p
  simp [CryptString.decrypt, cpDecrypt, providerDecrypt, hk, hv]

/-- Characterization of a successful rewrap loop: when every row of the
work list is wrapped under the password and carries a valid plaintext,
the loop succeeds and appends exactly `wrapRows`. -/
theorem rewrapLoop_ok (p : CryptProviders) (password remoteSecret : Bytes)
    (rtId : Int) :
    ∀ (L : List PwLocalTokenRow) (s : DBState),
      (∀ r ∈ L, r.token_crypt.data_crypt.key = password ∧
        isValidUtf8 r.token_crypt.data_crypt.plain = true) →
      rewrapLoop p password remoteSecret rtId L s =
        ({ s with
            rtLocalTokens := s.rtLocalTokens ++
              wrapRows p remoteSecret rtId L s.nextRtLtId,
            nextRtLtId := s.nextRtLtId + L.length }, .ok ()) := by
  intro L
  induction L with
  | nil => intro s hL; simp [rewrapLoop, wrapRows]
  | cons lt rest ih =>
    intro s hL
    obtain ⟨hk, hv⟩ := hL lt (List.mem_cons_self lt rest)
    have hd := CryptString.decrypt_eq_plain lt.token_crypt password p hk hv
    simp only [rewrapLoop, hd]
    rw [ih (new_local_token_rtcrypt s lt.id
      (CryptString.encrypt lt.token_crypt.data_crypt.plain remoteSecret p)
      rtId) (fun r hr => hL r (List.mem_cons_of_mem lt hr))]
    simp only [new_local_token_rtcrypt, wrapRows, Prod.mk.injEq,
      DBState.mk.injEq, List.append_assoc, List.singleton_append,
      List.length_cons, and_true, true_and]
    omega

theorem new_user_free (s : DBState) (username : Bytes) (ph : PasswordHashV)
    (hname : ∀ u ∈ s.users, ¬u.username = username) :
    new_user s username ph =
      ({ s with
          users := s.users ++ [⟨s.nextUserId, username, ph⟩],
          nextUserId := s.nextUserId + 1 }, .ok s.nextUserId) := by
  rw [new_user, if_neg]
  simp only [List.any_eq_true, not_exists, not_and]
  intro u hu
  simpa using hname u hu

/-- Characterization of a successful `create_remote_token`. -/
theorem create_remote_token_ok (p : CryptProviders) (uid : Int)
    (password remoteSecret salt : Bytes) (now vd : Int) (s : DBState)
    (hkeys : ∀ r ∈ s.pwLocalTokens.filter (fun r => r.user_id = uid),
      r.token_crypt.data_crypt.key = password ∧
      isValidUtf8 r.token_crypt.data_crypt.plain = true) :
    create_remote_token p uid password remoteSecret salt now vd s =
      ({ s with
          remoteTokens := s.remoteTokens ++
            [⟨s.nextRemoteTokenId, hashPassword remoteSecret salt, uid,
              now + vd⟩],
          rtLocalTokens := s.rtLocalTokens ++
            wrapRows p remoteSecret s.nextRemoteTokenId
              (s.pwLocalTokens.filter (fun r => r.user_id = uid))
              s.nextRtLtId,
          nextRtLtId := s.nextRtLtId +
            (s.pwLocalTokens.filter (fun r => r.user_id = uid)).length,
          nextRemoteTokenId := s.nextRemoteTokenId + 1 },
       .ok (intToDecBytes s.nextRemoteTokenId ++ [95] ++ remoteSecret)) := by
  rw [create_remote_token]
  rw [show get_local_tokens_by_user_pwcrypt
      (new_remote_token s (hashPassword remoteSecret salt) uid
        (now + vd)).1 uid =
      s.pwLocalTokens.filter (fun r => r.user_id = uid) from rfl]
  rw [show (new_remote_token s (hashPassword remoteSecret salt) uid
      (now + vd)).2 = s.nextRemoteTokenId from rfl]
  rw [rewrapLoop_ok p password remoteSecret s.nextRemoteTokenId
    (s.pwLocalTokens.filter (fun r => r.user_id = uid))
    (new_remote_token s (hashPassword remoteSecret salt) uid (now + vd)).1
    hkeys]
  rfl

/-- A found password-wrapped row plus its found session-wrapped row
yields a successful unwrap of the wrapped plaintext. -/
theorem decrypt_local_token_for_ok (uid : Int) (k : String) (rtK : Int)
    (rs : Bytes) (p : CryptProviders) (T : DBState)
    (r : PwLocalTokenRow) (w : RtLocalTokenRow) (plain : Bytes)
    (hfind : T.pwLocalTokens.find?
      (fun x => decide (x.user_id = uid) && decide (x.used_for = k)) =
      some r)
    (hfindw : T.rtLocalTokens.find?
      (fun x => decide (x.local_token_id = r.id) &&
        decide (x.decryptable_by_rt_id = rtK)) = some w)
    (hw : w.local_token_crypt.decrypt rs p = .ok plain) :
    decrypt_local_token_for uid k rtK rs p T = .ok plain := by
  simp [decrypt_local_token_for, get_local_token_by_used_for_pwcrypt, hfind,
    get_local_token_by_id_rtcrypt, hfindw, hw]

/-- Every row of `regRows` is wrapped under the password and carries the
valid generated plaintext. -/
theorem regRows_keys (p : CryptProviders) (password : Bytes)
    (gen : Nat → Bytes) (uid bp : Int)
    (hgen : ∀ j, isValidUtf8 (gen j) = true) :
    ∀ r ∈ regRows p password gen uid bp,
      r.token_crypt.data_crypt.key = password ∧
      isValidUtf8 r.token_crypt.data_crypt.plain = true := by
  intro r hr
  simp only [regRows, List.mem_cons, List.not_mem_nil, or_false] at hr
  rcases hr with rfl | rfl | rfl | rfl | rfl <;>
    exact ⟨by simp [CryptString.encrypt, cpEncrypt_key],
      by simp [CryptString.encrypt, cpEncrypt_plain, hgen]⟩

/-- Filtering a row set whose prior rows belong to other users down to
`uid` leaves exactly the provisioned rows. -/
theorem filter_regRows (p : CryptProviders) (password : Bytes)
    (gen : Nat → Bytes) (uid bp : Int) (pre : List PwLocalTokenRow)
    (hpre : ∀ r ∈ pre, ¬r.user_id = uid) :
    (pre ++ regRows p password gen uid bp).filter
      (fun r => r.user_id = uid) = regRows p password gen uid bp := by
  rw [List.filter_append]
  rw [List.filter_eq_nil_iff.mpr (fun r hr => by simp [hpre r hr])]
  simp [regRows]

/-- Characterization of a successful registration: the user row, the
five provisioned password-wrapped rows, their five session-wrapped
copies and the session row are appended, and the bearer token
`"{session_id}_{secret}"` is returned. -/
theorem handle_register_state
    (s : DBState) (username password salt : Bytes) (gen : Nat → Bytes)
    (remoteSecret rtSalt : Bytes) (p : CryptProviders) (now : Int)
    (hname : ∀ u ∈ s.users, ¬u.username = username)
    (hfresh : ∀ r ∈ s.pwLocalTokens, ¬r.user_id = s.nextUserId)
    (hgen : ∀ j, isValidUtf8 (gen j) = true) :
    handle_register username password salt gen remoteSecret rtSalt p now s =
      (⟨s.users ++ [⟨s.nextUserId, username, hashPassword password salt⟩],
        s.pwLocalTokens ++ regRows p password gen s.nextUserId s.nextPwLtId,
        s.rtLocalTokens ++
          wrapRows p remoteSecret s.nextRemoteTokenId
            (regRows p password gen s.nextUserId s.nextPwLtId) s.nextRtLtId,
        s.remoteTokens ++
          [⟨s.nextRemoteTokenId, hashPassword remoteSecret rtSalt,
            s.nextUserId, now + TOKEN_EXPIRE⟩],
        s.nextUserId + 1, s.nextPwLtId + 5, s.nextRtLtId + 5,
        s.nextRemoteTokenId + 1⟩,
       .ok (intToDecBytes s.nextRemoteTokenId ++ [95] ++ remoteSecret)) := by
  have hnu := new_user_free s username (hashPassword password salt) hname
  have hloop : registerLoop p s.nextUserId password gen get_db_idents 0
      ({ s with
          users := s.users ++
            [⟨s.nextUserId, username, hashPassword password salt⟩],
          nextUserId := s.nextUserId + 1 }) =
      ⟨s.users ++ [⟨s.nextUserId, username, hashPassword password salt⟩],
        s.pwLocalTokens ++ regRows p password gen s.nextUserId s.nextPwLtId,
        s.rtLocalTokens, s.remoteTokens, s.nextUserId + 1, s.nextPwLtId + 5,
        s.nextRtLtId, s.nextRemoteTokenId⟩ := by
    simp only [get_db_idents, registerLoop, add_new_local_token,
      new_local_token_pwcrypt, regRows, DBState.mk.injEq,
      List.append_assoc, List.singleton_append, List.cons_append,
      List.nil_append, List.cons.injEq, PwLocalTokenRow.mk.injEq,
      List.append_cancel_left_eq, and_true, true_and]
    omega
  have hkeys := regRows_keys p password gen s.nextUserId s.nextPwLtId hgen
  have hfilter := filter_regRows p password gen s.nextUserId s.nextPwLtId
    s.pwLocalTokens hfresh
  have hcrt := create_remote_token_ok p s.nextUserId password remoteSecret
    rtSalt now TOKEN_EXPIRE
    ⟨s.users ++ [⟨s.nextUserId, username, hashPassword password salt⟩],
      s.pwLocalTokens ++ regRows p password gen s.nextUserId s.nextPwLtId,
      s.rtLocalTokens, s.remoteTokens, s.nextUserId + 1, s.nextPwLtId + 5,
      s.nextRtLtId, s.nextRemoteTokenId⟩
    (by
      rw [show (⟨s.users ++
            [⟨s.nextUserId, username, hashPassword password salt⟩],
          s.pwLocalTokens ++
            regRows p password gen s.nextUserId s.nextPwLtId,
          s.rtLocalTokens, s.remoteTokens, s.nextUserId + 1,
          s.nextPwLtId + 5, s.nextRtLtId,
          s.nextRemoteTokenId⟩ : DBState).pwLocalTokens =
        s.pwLocalTokens ++ regRows p password gen s.nextUserId s.nextPwLtId
        from rfl]
      rw [hfilter]
      exact hkeys)
  rw [hfilter] at hcrt
  simp only [handle_register, hnu, hloop, hcrt]
  simp [regRows]

/-- After provisioning plus a rewrap for session `rtK`, unwrapping any
of the five resource kinds under the session secret returns exactly the
local secret generated for it during provisioning. -/
theorem unwrap_provisioned (p : CryptProviders) (uid bp rtK : Int)
    (password rs : Bytes) (gen : Nat → Bytes) (T : DBState)
    (pre : List PwLocalTokenRow) (preR : List RtLocalTokenRow)
    (a0 a1 a2 a3 a4 : Int)
    (hpw : T.pwLocalTokens = pre ++ regRows p password gen uid bp)
    (hpre : ∀ r ∈ pre, ¬r.user_id = uid)
    (hrt : T.rtLocalTokens = preR ++
      [⟨a0, bp, CryptString.encrypt (gen 0) rs p, rtK⟩,
       ⟨a1, bp + 1, CryptString.encrypt (gen 1) rs p, rtK⟩,
       ⟨a2, bp + 2, CryptString.encrypt (gen 2) rs p, rtK⟩,
       ⟨a3, bp + 3, CryptString.encrypt (gen 3) rs p, rtK⟩,
       ⟨a4, bp + 4, CryptString.encrypt (gen 4) rs p, rtK⟩])
    (hpreR : ∀ r ∈ preR, ¬r.decryptable_by_rt_id = rtK)
    (hgen : ∀ j, isValidUtf8 (gen j) = true) :
    ∀ i, i < 5 →
      decrypt_local_token_for uid (get_db_idents.getD i "") rtK rs p T =
        .ok (gen i) := by
  have hpreNone : ∀ k : String, pre.find?
      (fun x => decide (x.user_id = uid) && decide (x.used_for = k)) =
      none := by
    intro k
    rw [List.find?_eq_none]
    intro x hx
    simp [hpre x hx]
  have hpreRNone : ∀ b : Int, preR.find?
      (fun x => decide (x.local_token_id = b) &&
        decide (x.decryptable_by_rt_id = rtK)) = none := by
    intro b
    rw [List.find?_eq_none]
    intro x hx
    simp [hpreR x hx]
  intro i hi
  interval_cases i
  · refine decrypt_local_token_for_ok uid "CourseDB" rtK rs p T
      ⟨bp, uid, CryptString.encrypt (gen 0) password p, "CourseDB"⟩
      ⟨a0, bp, CryptString.encrypt (gen 0) rs p, rtK⟩ (gen 0) ?_ ?_
      (CryptString.decrypt_encrypt (gen 0) rs p (hgen 0))
    · rw [hpw, List.find?_append, hpreNone, Option.none_or]
      simp [regRows]
    · rw [hrt, List.find?_append, hpreRNone, Option.none_or]
      simp
  · refine decrypt_local_token_for_ok uid "TopicDB" rtK rs p T
      ⟨bp + 1, uid, CryptString.encrypt (gen 1) password p, "TopicDB"⟩
      ⟨a1, bp + 1, CryptString.encrypt (gen 1) rs p, rtK⟩ (gen 1) ?_ ?_
      (CryptString.decrypt_encrypt (gen 1) rs p (hgen 1))
    · rw [hpw, List.find?_append, hpreNone, Option.none_or]
      simp [regRows]
    · rw [hrt, List.find?_append, hpreRNone, Option.none_or]
      rw [List.find?_cons_of_neg _ (by simp)]
      simp
  · refine decrypt_local_token_for_ok uid "StudyGoalDB" rtK rs p T
      ⟨bp + 2, uid, CryptString.encrypt (gen 2) password p, "StudyGoalDB"⟩
      ⟨a2, bp + 2, CryptString.encrypt (gen 2) rs p, rtK⟩ (gen 2) ?_ ?_
      (CryptString.decrypt_encrypt (gen 2) rs p (hgen 2))
    · rw [hpw, List.find?_append, hpreNone, Option.none_or]
      simp [regRows]
    · rw [hrt, List.find?_append, hpreRNone, Option.none_or]
      rw [List.find?_cons_of_neg _ (by simp),
        List.find?_cons_of_neg _ (by simp)]
      simp
  · refine decrypt_local_token_for_ok uid "ExamDB" rtK rs p T
      ⟨bp + 3, uid, CryptString.encrypt (gen 3) password p, "ExamDB"⟩
      ⟨a3, bp + 3, CryptString.encrypt (gen 3) rs p, rtK⟩ (gen 3) ?_ ?_
      (CryptString.decrypt_encrypt (gen 3) rs p (hgen 3))
    · rw [hpw, List.find?_append, hpreNone, Option.none_or]
      simp [regRows]
    · rw [hrt, List.find?_append, hpreRNone, Option.none_or]
      rw [List.find?_cons_of_neg _ (by simp),
        List.find?_cons_of_neg _ (by simp),
        List.find?_cons_of_neg _ (by simp)]
      simp
  · refine decrypt_local_token_for_ok uid "ToDoDB" rtK rs p T
      ⟨bp + 4, uid, CryptString.encrypt (gen 4) password p, "ToDoDB"⟩
      ⟨a4, bp + 4, CryptString.encrypt (gen 4) rs p, rtK⟩ (gen 4) ?_ ?_
      (CryptString.decrypt_encrypt (gen 4) rs p (hgen 4))
    · rw [hpw, List.find?_append, hpreNone, Option.none_or]
      simp [regRows]
    · rw [hrt, List.find?_append, hpreRNone, Option.none_or]
      rw [List.find?_cons_of_neg _ (by simp),
        List.find?_cons_of_neg _ (by simp),
        List.find?_cons_of_neg _ (by simp),
        List.find?_cons_of_neg _ (by simp)]
      simp

/-- The rewrap of the five provisioned rows, written out. -/
theorem wrapRows_regRows (p : CryptProviders) (password rs : Bytes)
    (gen : Nat → Bytes) (uid bp rtId nrt : Int) :
    wrapRows p rs rtId (regRows p password gen uid bp) nrt =
      [⟨nrt, bp, CryptString.encrypt (gen 0) rs p, rtId⟩,
       ⟨nrt + 1, bp + 1, CryptString.encrypt (gen 1) rs p, rtId⟩,
       ⟨nrt + 2, bp + 2, CryptString.encrypt (gen 2) rs p, rtId⟩,
       ⟨nrt + 3, bp + 3, CryptString.encrypt (gen 3) rs p, rtId⟩,
       ⟨nrt + 4, bp + 4, CryptString.encrypt (gen 4) rs p, rtId⟩] := by
  simp only [wrapRows, regRows, CryptString.encrypt, cpEncrypt_plain,
    List.cons.injEq, RtLocalTokenRow.mk.injEq, and_true, true_and]
  omega

/-- C1: registering with password `p` provisions one local secret per
resource kind and immediately issues a session; unwrapping any kind with
the session id and session secret of that issuance returns exactly the
generated local secret — and the same holds for the session issued by a
later `Login` with the correct password. -/
theorem register_login_unwrap
    (s : DBState) (username password salt : Bytes) (gen : Nat → Bytes)
    (remoteSecret rtSalt : Bytes) (p : CryptProviders) (now : Int)
    (hname : ∀ u ∈ s.users, ¬u.username = username)
    (hfresh : ∀ r ∈ s.pwLocalTokens, ¬r.user_id = s.nextUserId)
    (hrtinv : ∀ r ∈ s.rtLocalTokens,
      r.decryptable_by_rt_id < s.nextRemoteTokenId)
    (hgen : ∀ j, isValidUtf8 (gen j) = true) :
    ∃ S, handle_register username password salt gen remoteSecret rtSalt p
        now s =
      (S, .ok (intToDecBytes s.nextRemoteTokenId ++ [95] ++ remoteSecret)) ∧
      (∀ i, i < 5 →
        decrypt_local_token_for s.nextUserId (get_db_idents.getD i "")
          s.nextRemoteTokenId remoteSecret p S = .ok (gen i)) ∧
      ∀ remoteSecret2 rtSalt2 : Bytes, ∀ now2 : Int, ∃ S2,
        handle_login username password remoteSecret2 rtSalt2 p now2 S =
          (S2, .ok (intToDecBytes (s.nextRemoteTokenId + 1) ++ [95] ++
            remoteSecret2)) ∧
        ∀ i, i < 5 →
          decrypt_local_token_for s.nextUserId (get_db_idents.getD i "")
            (s.nextRemoteTokenId + 1) remoteSecret2 p S2 = .ok (gen i) := by
  have hreg := handle_register_state s username password salt gen
    remoteSecret rtSalt p now hname hfresh hgen
  rw [wrapRows_regRows] at hreg
  refine ⟨_, hreg, ?_, ?_⟩
  · exact unwrap_provisioned p s.nextUserId s.nextPwLtId
      s.nextRemoteTokenId password remoteSecret gen _ s.pwLocalTokens
      s.rtLocalTokens s.nextRtLtId (s.nextRtLtId + 1) (s.nextRtLtId + 2)
      (s.nextRtLtId + 3) (s.nextRtLtId + 4) rfl hfresh rfl
      (fun r hr => by have := hrtinv r hr; omega) hgen
  · intro remoteSecret2 rtSalt2 now2
    have hu : get_user_by_username
        (⟨s.users ++ [⟨s.nextUserId, username, hashPassword password salt⟩],
          s.pwLocalTokens ++
            regRows p password gen s.nextUserId s.nextPwLtId,
          s.rtLocalTokens ++
            [⟨s.nextRtLtId, s.nextPwLtId,
              CryptString.encrypt (gen 0) remoteSecret p,
              s.nextRemoteTokenId⟩,
             ⟨s.nextRtLtId + 1, s.nextPwLtId + 1,
              CryptString.encrypt (gen 1) remoteSecret p,
              s.nextRemoteTokenId⟩,
             ⟨s.nextRtLtId + 2, s.nextPwLtId + 2,
              CryptString.encrypt (gen 2) remoteSecret p,
              s.nextRemoteTokenId⟩,
             ⟨s.nextRtLtId + 3, s.nextPwLtId + 3,
              CryptString.encrypt (gen 3) remoteSecret p,
              s.nextRemoteTokenId⟩,
             ⟨s.nextRtLtId + 4, s.nextPwLtId + 4,
              CryptString.encrypt (gen 4) remoteSecret p,
              s.nextRemoteTokenId⟩],
          s.remoteTokens ++
            [⟨s.nextRemoteTokenId, hashPassword remoteSecret rtSalt,
              s.nextUserId, now + TOKEN_EXPIRE⟩],
          s.nextUserId + 1, s.nextPwLtId + 5, s.nextRtLtId + 5,
          s.nextRemoteTokenId + 1⟩ : DBState) username =
        .ok ⟨s.nextUserId, username, hashPassword password salt⟩ := by
      rw [get_user_by_username]
      rw [show (⟨s.users ++
            [⟨s.nextUserId, username, hashPassword password salt⟩],
          s.pwLocalTokens ++
            regRows p password gen s.nextUserId s.nextPwLtId,
          s.rtLocalTokens ++
            [⟨s.nextRtLtId, s.nextPwLtId,
              CryptString.encrypt (gen 0) remoteSecret p,
              s.nextRemoteTokenId⟩,
             ⟨s.nextRtLtId + 1, s.nextPwLtId + 1,
              CryptString.encrypt (gen 1) remoteSecret p,
              s.nextRemoteTokenId⟩,
             ⟨s.nextRtLtId + 2, s.nextPwLtId + 2,
              CryptString.encrypt (gen 2) remoteSecret p,
              s.nextRemoteTokenId⟩,
             ⟨s.nextRtLtId + 3, s.nextPwLtId + 3,
              CryptString.encrypt (gen 3) remoteSecret p,
              s.nextRemoteTokenId⟩,
             ⟨s.nextRtLtId + 4, s.nextPwLtId + 4,
              CryptString.encrypt (gen 4) remoteSecret p,
              s.nextRemoteTokenId⟩],
          s.remoteTokens ++
            [⟨s.nextRemoteTokenId, hashPassword remoteSecret rtSalt,
              s.nextUserId, now + TOKEN_EXPIRE⟩],
          s.nextUserId + 1, s.nextPwLtId + 5, s.nextRtLtId + 5,
          s.nextRemoteTokenId + 1⟩ : DBState).users =
        s.users ++ [⟨s.nextUserId, username, hashPassword password salt⟩]
        from rfl]
      rw [List.find?_append,
        List.find?_eq_none.mpr (fun u hu => by simp [hname u hu]),
        Option.none_or]
      simp
    have hkeys2 := regRows_keys p password gen s.nextUserId s.nextPwLtId
      hgen
    have hfilter2 := filter_regRows p password gen s.nextUserId
      s.nextPwLtId s.pwLocalTokens hfresh
    have hcrt2 := create_remote_token_ok p s.nextUserId password
      remoteSecret2 rtSalt2 now2 TOKEN_EXPIRE
      ⟨s.users ++ [⟨s.nextUserId, username, hashPassword password salt⟩],
        s.pwLocalTokens ++ regRows p password gen s.nextUserId s.nextPwLtId,
        s.rtLocalTokens ++
          [⟨s.nextRtLtId, s.nextPwLtId,
            CryptString.encrypt (gen 0) remoteSecret p,
            s.nextRemoteTokenId⟩,
           ⟨s.nextRtLtId + 1, s.nextPwLtId + 1,
            CryptString.encrypt (gen 1) remoteSecret p,
            s.nextRemoteTokenId⟩,
           ⟨s.nextRtLtId + 2, s.nextPwLtId + 2,
            CryptString.encrypt (gen 2) remoteSecret p,
            s.nextRemoteTokenId⟩,
           ⟨s.nextRtLtId + 3, s.nextPwLtId + 3,
            CryptString.encrypt (gen 3) remoteSecret p,
            s.nextRemoteTokenId⟩,
           ⟨s.nextRtLtId + 4, s.nextPwLtId + 4,
            CryptString.encrypt (gen 4) remoteSecret p,
            s.nextRemoteTokenId⟩],
        s.remoteTokens ++
          [⟨s.nextRemoteTokenId, hashPassword remoteSecret rtSalt,
            s.nextUserId, now + TOKEN_EXPIRE⟩],
        s.nextUserId + 1, s.nextPwLtId + 5, s.nextRtLtId + 5,
        s.nextRemoteTokenId + 1⟩
      (by
        rw [show (⟨s.users ++
            [⟨s.nextUserId, username, hashPassword password salt⟩],
          s.pwLocalTokens ++
            regRows p password gen s.nextUserId s.nextPwLtId,
          s.rtLocalTokens ++
            [⟨s.nextRtLtId, s.nextPwLtId,
              CryptString.encrypt (gen 0) remoteSecret p,
              s.nextRemoteTokenId⟩,
             ⟨s.nextRtLtId + 1, s.nextPwLtId + 1,
              CryptString.encrypt (gen 1) remoteSecret p,
              s.nextRemoteTokenId⟩,
             ⟨s.nextRtLtId + 2, s.nextPwLtId + 2,
              CryptString.encrypt (gen 2) remoteSecret p,
              s.nextRemoteTokenId⟩,
             ⟨s.nextRtLtId + 3, s.nextPwLtId + 3,
              CryptString.encrypt (gen 3) remoteSecret p,
              s.nextRemoteTokenId⟩,
             ⟨s.nextRtLtId + 4, s.nextPwLtId + 4,
              CryptString.encrypt (gen 4) remoteSecret p,
              s.nextRemoteTokenId⟩],
          s.remoteTokens ++
            [⟨s.nextRemoteTokenId, hashPassword remoteSecret rtSalt,
              s.nextUserId, now + TOKEN_EXPIRE⟩],
          s.nextUserId + 1, s.nextPwLtId + 5, s.nextRtLtId + 5,
          s.nextRemoteTokenId + 1⟩ : DBState).pwLocalTokens =
          s.pwLocalTokens ++
            regRows p password gen s.nextUserId s.nextPwLtId from rfl,
          hfilter2]
        exact hkeys2)
    rw [hfilter2] at hcrt2
    rw [wrapRows_regRows] at hcrt2
    refine ⟨(create_remote_token p s.nextUserId password remoteSecret2
      rtSalt2 now2 TOKEN_EXPIRE
      ⟨s.users ++ [⟨s.nextUserId, username, hashPassword password salt⟩],
        s.pwLocalTokens ++ regRows p password gen s.nextUserId s.nextPwLtId,
        s.rtLocalTokens ++
          [⟨s.nextRtLtId, s.nextPwLtId,
            CryptString.encrypt (gen 0) remoteSecret p,
            s.nextRemoteTokenId⟩,
           ⟨s.nextRtLtId + 1, s.nextPwLtId + 1,
            CryptString.encrypt (gen 1) remoteSecret p,
            s.nextRemoteTokenId⟩,
           ⟨s.nextRtLtId + 2, s.nextPwLtId + 2,
            CryptString.encrypt (gen 2) remoteSecret p,
            s.nextRemoteTokenId⟩,
           ⟨s.nextRtLtId + 3, s.nextPwLtId + 3,
            CryptString.encrypt (gen 3) remoteSecret p,
            s.nextRemoteTokenId⟩,
           ⟨s.nextRtLtId + 4, s.nextPwLtId + 4,
            CryptString.encrypt (gen 4) remoteSecret p,
            s.nextRemoteTokenId⟩],
        s.remoteTokens ++
          [⟨s.nextRemoteTokenId, hashPassword remoteSecret rtSalt,
            s.nextUserId, now + TOKEN_EXPIRE⟩],
        s.nextUserId + 1, s.nextPwLtId + 5, s.nextRtLtId + 5,
        s.nextRemoteTokenId + 1⟩).1, ?_, ?_⟩
    · simp only [handle_login, hu]
      rw [if_pos (by simp [verifyPassword, hashPassword])]
      rw [hcrt2]
    · rw [hcrt2]
      refine unwrap_provisioned p s.nextUserId s.nextPwLtId
        (s.nextRemoteTokenId + 1) password remoteSecret2 gen _
        s.pwLocalTokens
        (s.rtLocalTokens ++
          [⟨s.nextRtLtId, s.nextPwLtId,
            CryptString.encrypt (gen 0) remoteSecret p,
            s.nextRemoteTokenId⟩,
           ⟨s.nextRtLtId + 1, s.nextPwLtId + 1,
            CryptString.encrypt (gen 1) remoteSecret p,
            s.nextRemoteTokenId⟩,
           ⟨s.nextRtLtId + 2, s.nextPwLtId + 2,
            CryptString.encrypt (gen 2) remoteSecret p,
            s.nextRemoteTokenId⟩,
           ⟨s.nextRtLtId + 3, s.nextPwLtId + 3,
            CryptString.encrypt (gen 3) remoteSecret p,
            s.nextRemoteTokenId⟩,
           ⟨s.nextRtLtId + 4, s.nextPwLtId + 4,
            CryptString.encrypt (gen 4) remoteSecret p,
            s.nextRemoteTokenId⟩])
        (s.nextRtLtId + 5) (s.nextRtLtId + 5 + 1) (s.nextRtLtId + 5 + 2)
        (s.nextRtLtId + 5 + 3) (s.nextRtLtId + 5 + 4) rfl hfresh
        (by rw [List.append_assoc]) ?_ hgen
      intro r hr
      rcases List.mem_append.mp hr with h1 | h1
      · have := hrtinv r h1
        omega
      · simp only [List.mem_cons, List.not_mem_nil, or_false] at h1
        rcases h1 with rfl | rfl | rfl | rfl | rfl <;> simp

/-- C1 witness: registration of user "a" with password "p" on an empty
store, a local secret "A" for every kind and session secret "B", then
unwrapping each kind after registration and after a later login. -/
theorem register_login_unwrap_witness :
    ∃ S, handle_register [97] [112] [0] (fun _ => [65]) [66] [1]
        .SimpleCryptProv 0 ⟨[], [], [], [], 1, 1, 1, 1⟩ =
      (S, .ok (intToDecBytes 1 ++ [95] ++ [66])) ∧
      (∀ i, i < 5 →
        decrypt_local_token_for 1 (get_db_idents.getD i "") 1 [66]
          .SimpleCryptProv S = .ok [65]) ∧
      ∀ remoteSecret2 rtSalt2 : Bytes, ∀ now2 : Int, ∃ S2,
        handle_login [97] [112] remoteSecret2 rtSalt2 .SimpleCryptProv
          now2 S =
          (S2, .ok (intToDecBytes (1 + 1) ++ [95] ++ remoteSecret2)) ∧
        ∀ i, i < 5 →
          decrypt_local_token_for 1 (get_db_idents.getD i "") (1 + 1)
            remoteSecret2 .SimpleCryptProv S2 = .ok [65] :=
  register_login_unwrap ⟨[], [], [], [], 1, 1, 1, 1⟩ [97] [112] [0]
    (fun _ => [65]) [66] [1] .SimpleCryptProv 0 (by simp) (by simp)
    (by simp) (fun _ => by show isValidUtf8 [65] = true; decide)

end EduFlow
